import Mathlib

/-!
Verification of the INA3221 solar power monitor (power-stream.py).

The development shallowly embeds the two classes of the program:

* `INA3221`  : the register codec (`_read_register` / `_write_register`),
  the reset and configuration handshake of `__init__`, and the calibrated
  queries `get_voltage` / `get_current`;
* `SolarPower` : the channel reading construction (`_read_channel`),
  the mean aggregation (`_get_ch_means` / `_calc_mean_cb`), and the
  `sched`-based dual-cadence scheduler (`_sample_cb`, `start`).

Machine integers are modelled as `Nat` with explicit bounds where overflow
matters; Python floats are modelled as exact rationals; a Python
`ValueError` is modelled as `Option.none`; the bus transport is a
time-indexed oracle `Nat → Nat → Nat` (query step, register → raw word).
-/

namespace PowerStream

/-! ## Register codec

`_read_register` takes the 16-bit word returned by `read_word_data`,
serialises it big-endian into two bytes, and reinterprets those bytes as a
native little-endian `H` value; `_write_register` packs the value as a
native little-endian `H` and reads the bytes back big-endian.  Both are
byte swaps of a 16-bit word. -/

/-- Decoding applied by the register read path (`_read_register`):
`to_bytes(2, byteorder=big)` followed by `struct.unpack(H)`. -/
def decodeRegisterWord (w : Nat) : Nat := (w / 256) + (w % 256) * 256

/-- Encoding applied by the register write path (`_write_register`):
`struct.pack(H)` followed by `int.from_bytes(byteorder=big)`. -/
def encodeRegisterWord (v : Nat) : Nat := (v % 256) * 256 + (v / 256)

/-! ## INA3221 register map and configuration bits -/

def INA3221_REG_CONFIG : Nat := 0x00
def INA3221_REG_SHUNTVOLTAGE_1 : Nat := 0x01
def INA3221_REG_BUSVOLTAGE_1 : Nat := 0x02

def INA3221_CONFIG_RST : Nat := 1 <<< 15
def INA3221_CONFIG_CH1_EN : Nat := 1 <<< 14
def INA3221_CONFIG_CH2_EN : Nat := 1 <<< 13
def INA3221_CONFIG_CH3_EN : Nat := 1 <<< 12
def INA3221_CONFIG_AVG2 : Nat := 1 <<< 11
def INA3221_CONFIG_AVG1 : Nat := 1 <<< 10
def INA3221_CONFIG_AVG0 : Nat := 1 <<< 9
def INA3221_CONFIG_VBUS_CT2 : Nat := 1 <<< 8
def INA3221_CONFIG_VBUS_CT1 : Nat := 1 <<< 7
def INA3221_CONFIG_VBUS_CT0 : Nat := 1 <<< 6
def INA3221_CONFIG_VSH_CT2 : Nat := 1 <<< 5
def INA3221_CONFIG_VSH_CT1 : Nat := 1 <<< 4
def INA3221_CONFIG_VSH_CT0 : Nat := 1 <<< 3
def INA3221_CONFIG_MODE_2 : Nat := 1 <<< 2
def INA3221_CONFIG_MODE_1 : Nat := 1 <<< 1
def INA3221_CONFIG_MODE_0 : Nat := 1 <<< 0

/-- The operating configuration word assembled in `INA3221.__init__`
(lines 53-65 of power-stream.py).  Note: the source includes
`VSH_CT2` but neither `VSH_CT1` nor `VSH_CT0`. -/
def initConfigWord : Nat :=
  INA3221_CONFIG_CH1_EN |||
  INA3221_CONFIG_CH2_EN |||
  INA3221_CONFIG_CH3_EN |||
  INA3221_CONFIG_AVG2 |||
  INA3221_CONFIG_AVG1 |||
  INA3221_CONFIG_AVG0 |||
  INA3221_CONFIG_VBUS_CT2 |||
  INA3221_CONFIG_VBUS_CT1 |||
  INA3221_CONFIG_VBUS_CT0 |||
  INA3221_CONFIG_VSH_CT2 |||
  INA3221_CONFIG_MODE_2 |||
  INA3221_CONFIG_MODE_1 |||
  INA3221_CONFIG_MODE_0

/-! ## Driver state and calibrated queries -/

/-- A driver handle: the bus transport (register address to the raw word
`read_word_data` returns) and the shunt resistor calibration constant. -/
structure INA3221 where
  read_word : Nat → Nat
  shunt_resistor : ℚ

/-- `INA3221._read_register`: bus read followed by the byte-order decode. -/
def read_register (d : INA3221) (reg : Nat) : Nat :=
  decodeRegisterWord (d.read_word reg)

/-- The `reg_type` argument of `get_voltage` (keys of `_VOLTAGE_LUT`). -/
inductive RegType | bus | shunt
deriving DecidableEq

/-- The `reg_base` field of `_VOLTAGE_LUT`. -/
def reg_base : RegType → Nat
  | .bus => INA3221_REG_BUSVOLTAGE_1
  | .shunt => INA3221_REG_SHUNTVOLTAGE_1

/-- The `convert` lambdas of `_VOLTAGE_LUT`. -/
def voltage_convert : RegType → ℚ → ℚ
  | .bus, x => x / 1000
  | .shunt, x => x / 1000 / 2 / 10

/-- Two's-complement reconstruction on line 92:
`value = (value - 65536) if value > 32767 else value`. -/
def to_signed (v : Nat) : Int :=
  if v > 32767 then (v : Int) - 65536 else (v : Int)

/-- `INA3221.get_voltage`; the `ValueError` for an invalid channel is
modelled as `none`. -/
def get_voltage (d : INA3221) (ch : Int) (rt : RegType) : Option ℚ :=
  if ch < 0 ∨ ch > 2 then none
  else
    let reg := reg_base rt + ch.toNat * 2
    let value := read_register d reg
    some (voltage_convert rt ((to_signed value : Int) : ℚ))

/-- `INA3221.get_current`: `get_voltage(ch, shunt) / shunt_resistor * 100`. -/
def get_current (d : INA3221) (ch : Int) : Option ℚ :=
  (get_voltage d ch .shunt).map fun v => v / d.shunt_resistor * 100

/-! ## Driver initialisation (`INA3221.__init__`)

The constructor writes the reset bit, busy-polls the config register until
the reset bit reads back clear (an unbounded `while` loop, modelled with
explicit fuel: `none` means the loop has not exited within the given
number of iterations), writes `initConfigWord`, and then runs a bounded
convergence wait of at most 10 sleep iterations.  Because the device may
answer differently on every query, the transport here is a time-indexed
oracle `reads : Nat → Nat → Nat` (poll step, register address → raw
word). -/

/-- The device as seen at poll step `t` of a time-indexed transport. -/
def devAt (reads : Nat → Nat → Nat) (r : ℚ) (t : Nat) : INA3221 :=
  { read_word := reads t, shunt_resistor := r }

/-- Line 51: `while self._read_register(CONFIG) & RST: time.sleep(0)`.
`k` is the index of the next poll; the result is the index of the first
poll whose reset bit is clear, or `none` if that does not happen within
`fuel` polls. -/
def resetPoll (reads : Nat → Nat → Nat) (r : ℚ) (k : Nat) : Nat → Option Nat
  | 0 => none
  | fuel + 1 =>
    if read_register (devAt reads r k) INA3221_REG_CONFIG &&& INA3221_CONFIG_RST = 0
    then some k
    else resetPoll reads r (k + 1) fuel

/-- The truthiness test Python applies to a float query result;
a `none` (exception) is never truthy. -/
def truthy : Option ℚ → Bool
  | none => false
  | some q => decide (q ≠ 0)

/-- The guard of the convergence loop on line 73:
`all((self.get_voltage(i) and self.get_current(i)) for i in range(3))`. -/
def allChannelsLive (d : INA3221) : Bool :=
  (List.range 3).all fun i => truthy (get_voltage d i .bus) && truthy (get_current d i)

/-- Lines 72-75: the convergence wait.  `k` is the poll step of the next
guard evaluation, the last argument is the remaining `timeout` budget;
the result is the number of sleep iterations performed. -/
def convergeIters (reads : Nat → Nat → Nat) (r : ℚ) (k : Nat) : Nat → Nat
  | 0 => 0
  | timeout + 1 =>
    if allChannelsLive (devAt reads r k) then 0
    else 1 + convergeIters reads r (k + 1) timeout

/-- What `__init__` leaves behind: the operating configuration word it
wrote after the reset bit read back clear, and the number of convergence
iterations it spent. -/
structure InitResult where
  configWritten : Nat
  convergeIterations : Nat
deriving DecidableEq

/-- The body of `INA3221.__init__` after the reset-bit write: poll until the reset bit
reads back clear (fuel-bounded; `none` models the loop not having exited),
then write the configuration word and run the convergence wait with a
timeout budget of 10. -/
def ina3221_init (reads : Nat → Nat → Nat) (r : ℚ) (fuel : Nat) : Option InitResult :=
  match resetPoll reads r 0 fuel with
  | none => none
  | some k =>
    some { configWritten := initConfigWord
           convergeIterations := convergeIters reads r (k + 1) 10 }

/-! ## SolarPower: channel readings and window means -/

/-- One per-channel reading dictionary built by `_read_channel`. -/
structure ChannelReading where
  v_load : ℚ
  current : ℚ
deriving DecidableEq

/-- `SolarPower._read_channel` for a `_CH_LUT` entry `(ch, gain)`:
`v_load = get_voltage(ch, bus)`, `current = get_current(ch) / 1000 * gain`. -/
def read_channel (d : INA3221) (ch : Int) (gain : ℚ) : Option ChannelReading :=
  match get_voltage d ch .bus, get_current d ch with
  | some v, some c => some { v_load := v, current := c / 1000 * gain }
  | _, _ => none

/-- A raw sample: the three channel reading dictionaries built in
`_sample_cb` for the fixed `_CH_LUT` channel names. -/
structure RawSample where
  solar : ChannelReading
  battery : ChannelReading
  output : ChannelReading
deriving DecidableEq

/-- Python `sum` over a generator: a left fold of `+` starting from `0`. -/
def pySum (l : List ℚ) : ℚ := l.foldl (· + ·) 0

/-- `SolarPower._get_ch_means` for one channel name: for each field,
`sum(sample[name][field] for sample in samples) / len(samples)`. -/
def get_ch_means (samples : List ChannelReading) : ChannelReading :=
  let cnt : ℚ := (samples.length : ℚ)
  { v_load := pySum (samples.map (·.v_load)) / cnt
    current := pySum (samples.map (·.current)) / cnt }

/-- The per-channel means computed by `_calc_mean_cb` over the window. -/
def calc_mean (samples : List RawSample) : RawSample :=
  { solar := get_ch_means (samples.map (·.solar))
    battery := get_ch_means (samples.map (·.battery))
    output := get_ch_means (samples.map (·.output)) }

/-! ## The `sched`-based scheduler

`SolarPower` drives two callbacks through a `sched.scheduler`:
`_sample_cb` (entered with `enterabs(next_sample, priority 1)`) and
`_calc_mean_cb` (entered with `enter(0, priority 0)`).  `sched` dispatches
the queued event that is minimal in the lexicographic order on
(absolute wake time, priority, insertion sequence number).
The state below carries the event queue, the monotonic clock, the window
length, and `_next_sample`; dispatch is idealised as happening at the
event's scheduled wake time (the clock never runs backwards). -/

/-- The two callback kinds `SolarPower` schedules. -/
inductive TaskKind | sampleTask | meanTask
deriving DecidableEq

/-- A queued `sched` event: absolute wake time, priority, insertion
sequence number (the `heapq` tie-breaker), and the callback. -/
structure Event where
  time : ℚ
  prio : Nat
  seq : Nat
  kind : TaskKind
deriving DecidableEq

/-- The strict lexicographic order on (time, priority, sequence) that
`sched`'s heap queue pops by. -/
def Event.before (a b : Event) : Bool :=
  if a.time < b.time then true
  else if b.time < a.time then false
  else if a.prio < b.prio then true
  else if b.prio < a.prio then false
  else decide (a.seq < b.seq)

/-- Pop the minimal event of the queue, returning it and the rest. -/
def pickMin : List Event → Option (Event × List Event)
  | [] => none
  | e :: es =>
    match pickMin es with
    | none => some (e, es)
    | some (m, rest) => if m.before e then some (m, e :: rest) else some (e, es)

/-- `SolarPower`'s constructor parameters `period` and `mean_period_cnt`. -/
structure SPConfig where
  period : ℚ
  cnt : Nat

/-- Scheduler state: monotonic clock, `sched` event queue, next insertion
sequence number, `len(self._samples)`, and `self._next_sample`. -/
structure SchedState where
  now : ℚ
  queue : List Event
  nextSeq : Nat
  window : Nat
  nextSample : ℚ
deriving DecidableEq

/-- The body of `_sample_cb`, executed with the clock at `s.now`:
advance `_next_sample` by the sample period, `enterabs` the next sample
event at the new `_next_sample` with priority 1, append to the window,
and if the window has reached `mean_period_cnt`, `enter` a mean event at
the current instant with priority 0. -/
def sampleBody (c : SPConfig) (s : SchedState) : SchedState :=
  let ns := s.nextSample + c.period
  let q1 := s.queue ++ [{ time := ns, prio := 1, seq := s.nextSeq, kind := .sampleTask }]
  let w := s.window + 1
  let q2 := if c.cnt ≤ w
            then q1 ++ [{ time := s.now, prio := 0, seq := s.nextSeq + 1, kind := .meanTask }]
            else q1
  { s with queue := q2, nextSeq := s.nextSeq + 2, window := w, nextSample := ns }

/-- The body of `_calc_mean_cb`: emit the means and clear the window. -/
def meanBody (s : SchedState) : SchedState :=
  { s with window := 0 }

/-- One dispatch of `sched.run`: pop the minimal queued event, advance the
clock to its wake time, and run its callback. -/
def dispatch (c : SPConfig) (s : SchedState) : SchedState :=
  match pickMin s.queue with
  | none => s
  | some (e, rest) =>
    let s1 := { s with queue := rest, now := max s.now e.time }
    match e.kind with
    | .sampleTask => sampleBody c s1
    | .meanTask => meanBody s1

/-- `SolarPower.start` at monotonic time `t0`: anchor
`_next_sample = t0` on an idle scheduler and call `_sample_cb` directly. -/
def startState (c : SPConfig) (t0 : ℚ) : SchedState :=
  sampleBody c { now := t0, queue := [], nextSeq := 0, window := 0, nextSample := t0 }

/-- The scheduler states reachable from `start` by `sched.run` dispatches. -/
inductive Reach (c : SPConfig) : SchedState → Prop
  | start (t0 : ℚ) : Reach c (startState c t0)
  | step {s : SchedState} : Reach c s → Reach c (dispatch c s)

/-- Repeated firings of `_sample_cb` alone, the clock sitting at an
arbitrary dispatch time `dt k` for the k-th firing; used to state that
`_next_sample` accumulates independently of dispatch latency. -/
def fireSamples (c : SPConfig) (dt : Nat → ℚ) (t0 : ℚ) : Nat → SchedState
  | 0 => { now := t0, queue := [], nextSeq := 0, window := 0, nextSample := t0 }
  | k + 1 =>
    let s := fireSamples c dt t0 k
    sampleBody c { s with now := dt k }

/-! ## Concrete transports used as witnesses -/

/-- A mock transport whose decoded bus registers (even addresses) read
12000 and whose decoded shunt registers (odd addresses) read 1000. -/
def mockReadWord (reg : Nat) : Nat :=
  if reg % 2 = 0 then encodeRegisterWord 12000 else encodeRegisterWord 1000

/-- A driver over `mockReadWord` with the default 0.1 ohm shunt. -/
def mockDev : INA3221 := { read_word := mockReadWord, shunt_resistor := 1 / 10 }

/-- A time-indexed transport that always answers zero. -/
def zeroReads : Nat → Nat → Nat := fun _ _ => 0

/-- A time-indexed transport whose config register always decodes with the
reset bit set. -/
def stuckReads : Nat → Nat → Nat := fun _ _ => encodeRegisterWord 0x8000

/-! # Theorems -/

/-! ## C8: codec round-trip -/

/-- Claim C8: for every 16-bit value v in [0, 65535], the byte-order
conversion of the register read path undoes the byte-order conversion of
the register write path: decode (encode v) = v. -/
theorem c8_codec_roundtrip (v : Nat) (h : v ≤ 65535) :
    decodeRegisterWord (encodeRegisterWord v) = v := by
  unfold decodeRegisterWord encodeRegisterWord
  omega

/-- Witness for C8 at v = 43981 (0xABCD). -/
theorem c8_codec_roundtrip_witness :
    (43981 : Nat) ≤ 65535 ∧ decodeRegisterWord (encodeRegisterWord 43981) = 43981 :=
  ⟨by decide, c8_codec_roundtrip 43981 (by decide)⟩

/-! ## C4: channel validation -/

/-- Claim C4: for every integer channel value ch, get_voltage and
get_current fail with the invalid-channel error (modelled as none)
exactly when ch is outside 0..2, and return a value for exactly ch in
0..2. -/
theorem c4_channel_validation (d : INA3221) (ch : Int) (rt : RegType) :
    (get_voltage d ch rt = none ↔ ch < 0 ∨ 2 < ch) ∧
    (get_current d ch = none ↔ ch < 0 ∨ 2 < ch) ∧
    ((∃ q, get_voltage d ch rt = some q) ↔ 0 ≤ ch ∧ ch ≤ 2) ∧
    ((∃ q, get_current d ch = some q) ↔ 0 ≤ ch ∧ ch ≤ 2) := by
  by_cases hch : ch < 0 ∨ ch > 2
  · simp [get_voltage, get_current, hch]
    omega
  · simp [get_voltage, get_current, hch]
    omega

/-! ## C3: addressing, sign reconstruction and scaling of get_voltage -/

/-- Claim C3: for every channel ch in 0..2, get_voltage reads the register
at address base + ch*2 (base 0x02 for bus, 0x01 for shunt), reconstructs
the signed value as raw - 65536 when the decoded 16-bit value exceeds
32767 and as the raw value otherwise, and returns exactly decoded/1000
volts for bus and decoded/1000/2/10 volts for shunt. -/
theorem c3_get_voltage_formula (d : INA3221) (ch : Int) (h0 : 0 ≤ ch) (h2 : ch ≤ 2) :
    get_voltage d ch .bus =
      some (((if 32767 < read_register d (0x02 + ch.toNat * 2)
              then (read_register d (0x02 + ch.toNat * 2) : Int) - 65536
              else (read_register d (0x02 + ch.toNat * 2) : Int)) : ℚ) / 1000) ∧
    get_voltage d ch .shunt =
      some (((if 32767 < read_register d (0x01 + ch.toNat * 2)
              then (read_register d (0x01 + ch.toNat * 2) : Int) - 65536
              else (read_register d (0x01 + ch.toNat * 2) : Int)) : ℚ) / 1000 / 2 / 10) := by
  have hch : ¬(ch < 0 ∨ ch > 2) := by omega
  constructor <;>
    simp [get_voltage, hch, reg_base, voltage_convert, to_signed,
      INA3221_REG_BUSVOLTAGE_1, INA3221_REG_SHUNTVOLTAGE_1]

/-- Witness for C3: channel 0 of the mock device (decoded bus register
12000, decoded shunt register 1000). -/
theorem c3_get_voltage_formula_witness :
    (0 : Int) ≤ 0 ∧ (0 : Int) ≤ 2 ∧
    (get_voltage mockDev 0 .bus =
      some (((if 32767 < read_register mockDev (0x02 + (0 : Int).toNat * 2)
              then (read_register mockDev (0x02 + (0 : Int).toNat * 2) : Int) - 65536
              else (read_register mockDev (0x02 + (0 : Int).toNat * 2) : Int)) : ℚ) / 1000) ∧
    get_voltage mockDev 0 .shunt =
      some (((if 32767 < read_register mockDev (0x01 + (0 : Int).toNat * 2)
              then (read_register mockDev (0x01 + (0 : Int).toNat * 2) : Int) - 65536
              else (read_register mockDev (0x01 + (0 : Int).toNat * 2) : Int)) : ℚ) / 1000 / 2 / 10)) :=
  ⟨le_refl 0, by decide, c3_get_voltage_formula mockDev 0 (le_refl 0) (by decide)⟩

/-! ## C1: end-to-end scenario (corrected)

With decoded shunt register 1000, decoded bus register 12000,
shunt_resistor = 0.1 and gain = -1 on channel 0, the code yields
get_current(0) = 1000 * (1/1000/2/10) / 0.1 * 100 = 50.0 amps (not the
5.0 amps the claim states), a channel-reading current of
50 / 1000 * (-1) = -0.05 amps (not -0.005), and a bus voltage of
12.0 volts (as claimed). -/

/-- Counterexample to claim C1 as stated: in the claimed scenario the
driver returns 50 amps, not 5 amps in magnitude, and the channel
reading's current is -1/20 = -0.05 amps, not -0.005 amps. -/
theorem c1_counterexample :
    get_current mockDev 0 = some 50 ∧
    get_current mockDev 0 ≠ some 5 ∧
    get_current mockDev 0 ≠ some (-5) ∧
    read_channel mockDev 0 (-1) ≠
      some { v_load := 12, current := -(5 : ℚ) / 1000 } := by
  refine ⟨?_, ?_, ?_, ?_⟩ <;>
    · simp [read_channel, get_current, get_voltage, mockDev, mockReadWord, read_register,
        decodeRegisterWord, encodeRegisterWord, reg_base, voltage_convert, to_signed,
        INA3221_REG_SHUNTVOLTAGE_1, INA3221_REG_BUSVOLTAGE_1, ChannelReading.mk.injEq]
      norm_num

/-- Claim C1 amended: same scenario, with the magnitudes the code
actually produces: get_current(0) = 50 amps, channel current
50/1000 * (-1) = -0.05 amps, bus voltage 12 volts; the shunt voltage
underlying them is 0.05 volts. -/
theorem c1_scenario_amended :
    get_voltage mockDev 0 .shunt = some (1 / 20) ∧
    get_current mockDev 0 = some 50 ∧
    read_channel mockDev 0 (-1) = some { v_load := 12, current := -(1 : ℚ) / 20 } ∧
    get_voltage mockDev 0 .bus = some 12 := by
  refine ⟨?_, ?_, ?_, ?_⟩ <;>
    · simp [read_channel, get_current, get_voltage, mockDev, mockReadWord, read_register,
        decodeRegisterWord, encodeRegisterWord, reg_base, voltage_convert, to_signed,
        INA3221_REG_SHUNTVOLTAGE_1, INA3221_REG_BUSVOLTAGE_1, ChannelReading.mk.injEq]
      norm_num

/-! ## C2: the operating configuration word (corrected)

The configuration word assembled on lines 53-65 includes `VSH_CT2` but
not `VSH_CT1` or `VSH_CT0`, so the shunt conversion-time field is NOT at
its maximum setting: bits 4 and 3 of the written word are clear. -/

/-- Counterexample to claim C2 as stated: for a transport whose reset bit
reads back clear at once, the configuration word that the driver
initialisation writes has VSH_CT1 (bit 4) and VSH_CT0 (bit 3) clear,
contradicting "all three VSH_CT bits set". -/
theorem c2_counterexample :
    ∃ res, ina3221_init zeroReads 1 1 = some res ∧
      Nat.testBit res.configWritten 4 = false ∧
      Nat.testBit res.configWritten 3 = false := by
  have h : resetPoll zeroReads 1 0 1 = some 0 := by
    simp [resetPoll, read_register, devAt, zeroReads, decodeRegisterWord,
      INA3221_REG_CONFIG, INA3221_CONFIG_RST]
  refine ⟨{ configWritten := initConfigWord,
            convergeIterations := convergeIters zeroReads 1 1 10 }, ?_, by decide, by decide⟩
  unfold ina3221_init
  rw [h]

/-- Claim C2 amended: after the reset bit reads back clear, the driver
initialisation writes the single operating configuration word 0x7fe7,
whose bit-pattern enables all three channels (bits 14-12), sets all
three AVG bits (11-9), all three VBUS_CT bits (8-6), only the top
VSH_CT bit (bit 5, with bits 4 and 3 clear), and all three MODE bits
(2-0); the reset bit (15) is not set in it. -/
theorem c2_config_word_amended (reads : Nat → Nat → Nat) (r : ℚ) (fuel k : Nat)
    (h : resetPoll reads r 0 fuel = some k) :
    ∃ res, ina3221_init reads r fuel = some res ∧
      res.configWritten = initConfigWord ∧
      res.configWritten = 0x7fe7 ∧
      (Nat.testBit res.configWritten 15 = false ∧
       Nat.testBit res.configWritten 14 = true ∧
       Nat.testBit res.configWritten 13 = true ∧
       Nat.testBit res.configWritten 12 = true ∧
       Nat.testBit res.configWritten 11 = true ∧
       Nat.testBit res.configWritten 10 = true ∧
       Nat.testBit res.configWritten 9 = true ∧
       Nat.testBit res.configWritten 8 = true ∧
       Nat.testBit res.configWritten 7 = true ∧
       Nat.testBit res.configWritten 6 = true ∧
       Nat.testBit res.configWritten 5 = true ∧
       Nat.testBit res.configWritten 4 = false ∧
       Nat.testBit res.configWritten 3 = false ∧
       Nat.testBit res.configWritten 2 = true ∧
       Nat.testBit res.configWritten 1 = true ∧
       Nat.testBit res.configWritten 0 = true) := by
  have hval : initConfigWord = 0x7fe7 := by decide
  have hbits : Nat.testBit initConfigWord 15 = false ∧
      Nat.testBit initConfigWord 14 = true ∧
      Nat.testBit initConfigWord 13 = true ∧
      Nat.testBit initConfigWord 12 = true ∧
      Nat.testBit initConfigWord 11 = true ∧
      Nat.testBit initConfigWord 10 = true ∧
      Nat.testBit initConfigWord 9 = true ∧
      Nat.testBit initConfigWord 8 = true ∧
      Nat.testBit initConfigWord 7 = true ∧
      Nat.testBit initConfigWord 6 = true ∧
      Nat.testBit initConfigWord 5 = true ∧
      Nat.testBit initConfigWord 4 = false ∧
      Nat.testBit initConfigWord 3 = false ∧
      Nat.testBit initConfigWord 2 = true ∧
      Nat.testBit initConfigWord 1 = true ∧
      Nat.testBit initConfigWord 0 = true := by decide
  refine ⟨{ configWritten := initConfigWord,
            convergeIterations := convergeIters reads r (k + 1) 10 }, ?_, rfl, hval, hbits⟩
  unfold ina3221_init
  rw [h]

/-- Witness for C2's amended theorem: the always-zero transport clears
the reset bit on the first poll. -/
theorem c2_config_word_amended_witness :
    resetPoll zeroReads 1 0 1 = some 0 ∧
    (∃ res, ina3221_init zeroReads 1 1 = some res ∧
      res.configWritten = initConfigWord ∧
      res.configWritten = 0x7fe7 ∧
      (Nat.testBit res.configWritten 15 = false ∧
       Nat.testBit res.configWritten 14 = true ∧
       Nat.testBit res.configWritten 13 = true ∧
       Nat.testBit res.configWritten 12 = true ∧
       Nat.testBit res.configWritten 11 = true ∧
       Nat.testBit res.configWritten 10 = true ∧
       Nat.testBit res.configWritten 9 = true ∧
       Nat.testBit res.configWritten 8 = true ∧
       Nat.testBit res.configWritten 7 = true ∧
       Nat.testBit res.configWritten 6 = true ∧
       Nat.testBit res.configWritten 5 = true ∧
       Nat.testBit res.configWritten 4 = false ∧
       Nat.testBit res.configWritten 3 = false ∧
       Nat.testBit res.configWritten 2 = true ∧
       Nat.testBit res.configWritten 1 = true ∧
       Nat.testBit res.configWritten 0 = true)) := by
  have h : resetPoll zeroReads 1 0 1 = some 0 := by
    simp [resetPoll, read_register, devAt, zeroReads, decodeRegisterWord,
      INA3221_REG_CONFIG, INA3221_CONFIG_RST]
  exact ⟨h, c2_config_word_amended zeroReads 1 1 0 h⟩

/-! ## C5: exact arithmetic means -/

/-- Python's `sum` (a left fold from 0) agrees with `List.sum`. -/
theorem pySum_eq_sum (l : List ℚ) : pySum l = l.sum := by
  have key : ∀ (l : List ℚ) (a : ℚ), l.foldl (· + ·) a = a + l.sum := by
    intro l
    induction l with
    | nil => simp
    | cons x xs ih => intro a; simp [ih]; ring
  simp [pySum, key]

/-- Claim C5: for every window of N raw samples (N = mean_period_cnt)
present at flush time, the emitted mean sample assigns to each channel
and each field the exact arithmetic mean: the sum of that field's values
over all N samples divided by N. -/
theorem c5_mean_exact (samples : List RawSample) (n : Nat)
    (hlen : samples.length = n) (hn : 0 < n) :
    (calc_mean samples).solar.v_load = (samples.map (·.solar.v_load)).sum / n ∧
    (calc_mean samples).solar.current = (samples.map (·.solar.current)).sum / n ∧
    (calc_mean samples).battery.v_load = (samples.map (·.battery.v_load)).sum / n ∧
    (calc_mean samples).battery.current = (samples.map (·.battery.current)).sum / n ∧
    (calc_mean samples).output.v_load = (samples.map (·.output.v_load)).sum / n ∧
    (calc_mean samples).output.current = (samples.map (·.output.current)).sum / n := by
  refine ⟨?_, ?_, ?_, ?_, ?_, ?_⟩ <;>
    simp [calc_mean, get_ch_means, pySum_eq_sum, List.map_map, Function.comp_def, hlen]

/-- The synthetic raw sample used by the C5 witness: field values form
arithmetic sequences in the sample index. -/
def c5SampleAt (i : Nat) : RawSample :=
  { solar := { v_load := (i : ℚ), current := 2 * (i : ℚ) }
    battery := { v_load := (i : ℚ) + 1, current := 3 * (i : ℚ) }
    output := { v_load := 10 - (i : ℚ), current := (i : ℚ) / 2 } }

/-- A window of 30 synthetic raw samples. -/
def c5Window : List RawSample := (List.range 30).map c5SampleAt

/-- Witness for C5: the 30-sample synthetic window. -/
theorem c5_mean_exact_witness :
    c5Window.length = 30 ∧ 0 < 30 ∧
    ((calc_mean c5Window).solar.v_load = (c5Window.map (·.solar.v_load)).sum / 30 ∧
     (calc_mean c5Window).solar.current = (c5Window.map (·.solar.current)).sum / 30 ∧
     (calc_mean c5Window).battery.v_load = (c5Window.map (·.battery.v_load)).sum / 30 ∧
     (calc_mean c5Window).battery.current = (c5Window.map (·.battery.current)).sum / 30 ∧
     (calc_mean c5Window).output.v_load = (c5Window.map (·.output.v_load)).sum / 30 ∧
     (calc_mean c5Window).output.current = (c5Window.map (·.output.current)).sum / 30) :=
  ⟨by simp [c5Window], by decide,
   c5_mean_exact c5Window 30 (by simp [c5Window]) (by decide)⟩

/-! ## C9: the bounded convergence wait -/

/-- The convergence wait never performs more iterations than its timeout
budget. -/
theorem convergeIters_le (reads : Nat → Nat → Nat) (r : ℚ) :
    ∀ t k, convergeIters reads r k t ≤ t := by
  intro t
  induction t with
  | zero => intro k; simp [convergeIters]
  | succ t ih =>
    intro k
    simp only [convergeIters]
    split
    · omega
    · have := ih (k + 1); omega

/-- The convergence wait performs exactly m iterations when the guard
first holds at relative step m (or the budget t runs out at m = t). -/
theorem convergeIters_stops (reads : Nat → Nat → Nat) (r : ℚ) :
    ∀ t k m, m ≤ t →
      (∀ i, i < m → allChannelsLive (devAt reads r (k + i)) = false) →
      (m < t → allChannelsLive (devAt reads r (k + m)) = true) →
      convergeIters reads r k t = m := by
  intro t
  induction t with
  | zero =>
    intro k m hm _ _
    have : m = 0 := by omega
    subst this
    simp [convergeIters]
  | succ t ih =>
    intro k m hm hfalse htrue
    cases m with
    | zero =>
      have hl : allChannelsLive (devAt reads r (k + 0)) = true := htrue (by omega)
      rw [Nat.add_zero] at hl
      simp [convergeIters, hl]
    | succ m' =>
      have hf0 : allChannelsLive (devAt reads r k) = false := by
        have := hfalse 0 (by omega)
        rwa [Nat.add_zero] at this
      have hrec : convergeIters reads r (k + 1) t = m' := by
        apply ih
        · omega
        · intro i hi
          have heq : k + 1 + i = k + (i + 1) := by omega
          rw [heq]
          exact hfalse (i + 1) (by omega)
        · intro h1
          have heq : k + 1 + m' = k + (m' + 1) := by omega
          rw [heq]
          exact htrue (by omega)
      simp only [convergeIters, hf0, if_neg Bool.false_ne_true, hrec]
      omega

/-- Claim C9: once the reset poll has exited, the startup convergence
wait performs at most 10 iterations, stops as soon as all three channels
report non-zero voltage and current (exactly at the first live step, or
at the 10-iteration timeout), and the driver initialisation completes in
every case. -/
theorem c9_convergence_bounded (reads : Nat → Nat → Nat) (r : ℚ) (fuel j : Nat)
    (h : resetPoll reads r 0 fuel = some j) :
    (∃ res, ina3221_init reads r fuel = some res) ∧
    (∀ res, ina3221_init reads r fuel = some res → res.convergeIterations ≤ 10) ∧
    (∀ m, m ≤ 10 →
      (∀ i, i < m → allChannelsLive (devAt reads r (j + 1 + i)) = false) →
      (m < 10 → allChannelsLive (devAt reads r (j + 1 + m)) = true) →
      ∀ res, ina3221_init reads r fuel = some res → res.convergeIterations = m) := by
  have hinit : ina3221_init reads r fuel =
      some { configWritten := initConfigWord
             convergeIterations := convergeIters reads r (j + 1) 10 } := by
    unfold ina3221_init
    rw [h]
  refine ⟨⟨_, hinit⟩, ?_, ?_⟩
  · intro res hres
    rw [hinit] at hres
    cases hres
    exact convergeIters_le reads r 10 (j + 1)
  · intro m hm hfalse htrue res hres
    rw [hinit] at hres
    cases hres
    exact convergeIters_stops reads r 10 (j + 1) m hm hfalse htrue

/-- Witness for C9: the always-zero transport; the reset poll exits on
its first read, no channel ever reports non-zero, and the driver
completes after the full 10-iteration timeout. -/
theorem c9_convergence_bounded_witness :
    resetPoll zeroReads 1 0 1 = some 0 ∧
    ((∃ res, ina3221_init zeroReads 1 1 = some res) ∧
     (∀ res, ina3221_init zeroReads 1 1 = some res → res.convergeIterations ≤ 10) ∧
     (∀ m, m ≤ 10 →
       (∀ i, i < m → allChannelsLive (devAt zeroReads 1 (0 + 1 + i)) = false) →
       (m < 10 → allChannelsLive (devAt zeroReads 1 (0 + 1 + m)) = true) →
       ∀ res, ina3221_init zeroReads 1 1 = some res → res.convergeIterations = m)) := by
  have h : resetPoll zeroReads 1 0 1 = some 0 := by
    simp [resetPoll, read_register, devAt, zeroReads, decodeRegisterWord,
      INA3221_REG_CONFIG, INA3221_CONFIG_RST]
  exact ⟨h, c9_convergence_bounded zeroReads 1 1 0 h⟩

/-! ## C10: the unbounded reset poll -/

/-- The guard of the reset poll is zero exactly when bit 15 of the decoded
config register is clear. -/
theorem and_rst_eq_zero_iff (x : Nat) :
    x &&& INA3221_CONFIG_RST = 0 ↔ Nat.testBit x 15 = false := by
  have h : INA3221_CONFIG_RST = 2 ^ 15 := by decide
  rw [h, Nat.and_two_pow]
  cases hx : Nat.testBit x 15 <;> simp

/-- If every poll of the config register has the reset bit set, the poll
loop exits within no fuel bound. -/
theorem resetPoll_none_of_stuck (reads : Nat → Nat → Nat) (r : ℚ)
    (hstuck : ∀ n,
      read_register (devAt reads r n) INA3221_REG_CONFIG &&& INA3221_CONFIG_RST ≠ 0) :
    ∀ fuel k, resetPoll reads r k fuel = none := by
  intro fuel
  induction fuel with
  | zero => intro k; rfl
  | succ fuel ih =>
    intro k
    simp [resetPoll, hstuck k, ih (k + 1)]

/-- If the poll loop exits, the read it exits on has a clear reset bit. -/
theorem resetPoll_some_clear (reads : Nat → Nat → Nat) (r : ℚ) :
    ∀ fuel k j, resetPoll reads r k fuel = some j →
      read_register (devAt reads r j) INA3221_REG_CONFIG &&& INA3221_CONFIG_RST = 0 := by
  intro fuel
  induction fuel with
  | zero => intro k j hsome; simp [resetPoll] at hsome
  | succ fuel ih =>
    intro k j hsome
    by_cases hc :
        read_register (devAt reads r k) INA3221_REG_CONFIG &&& INA3221_CONFIG_RST = 0
    · simp [resetPoll, hc] at hsome
      subst hsome
      exact hc
    · simp [resetPoll, hc] at hsome
      exact ih (k + 1) j hsome

/-- If some poll within the fuel budget has a clear reset bit, the poll
loop exits. -/
theorem resetPoll_some_of_clear (reads : Nat → Nat → Nat) (r : ℚ) :
    ∀ fuel k,
      (∃ i, i < fuel ∧
        read_register (devAt reads r (k + i)) INA3221_REG_CONFIG &&&
          INA3221_CONFIG_RST = 0) →
      ∃ j, resetPoll reads r k fuel = some j := by
  intro fuel
  induction fuel with
  | zero =>
    intro k hex
    obtain ⟨i, hi, _⟩ := hex
    omega
  | succ fuel ih =>
    intro k hex
    by_cases hc :
        read_register (devAt reads r k) INA3221_REG_CONFIG &&& INA3221_CONFIG_RST = 0
    · exact ⟨k, by simp [resetPoll, hc]⟩
    · obtain ⟨i, hi, hclear⟩ := hex
      cases i with
      | zero =>
        rw [Nat.add_zero] at hclear
        exact absurd hclear hc
      | succ i =>
        obtain ⟨j, hj⟩ := ih (k + 1) ⟨i, by omega, by
          have heq : k + 1 + i = k + (i + 1) := by omega
          rw [heq]
          exact hclear⟩
        exact ⟨j, by simp [resetPoll, hc, hj]⟩

/-- Claim C10: the reset poll has no iteration bound: when every read of
the config register decodes with the reset bit (bit 15) set, the poll
stays unfinished under every fuel bound and the driver initialisation
never reaches the configuration write; and the poll exits exactly for
response sequences in which some read eventually has the reset bit
clear. -/
theorem c10_reset_poll_unbounded (reads : Nat → Nat → Nat) (r : ℚ) :
    ((∀ n, Nat.testBit (read_register (devAt reads r n) INA3221_REG_CONFIG) 15 = true) →
       ∀ fuel, resetPoll reads r 0 fuel = none ∧ ina3221_init reads r fuel = none) ∧
    (∀ fuel j, resetPoll reads r 0 fuel = some j →
       Nat.testBit (read_register (devAt reads r j) INA3221_REG_CONFIG) 15 = false) ∧
    ((∃ n, Nat.testBit (read_register (devAt reads r n) INA3221_REG_CONFIG) 15 = false) →
       ∃ fuel res, ina3221_init reads r fuel = some res) := by
  refine ⟨?_, ?_, ?_⟩
  · intro hset fuel
    have hstuck : ∀ n,
        read_register (devAt reads r n) INA3221_REG_CONFIG &&& INA3221_CONFIG_RST ≠ 0 := by
      intro n hzero
      have := (and_rst_eq_zero_iff _).mp hzero
      rw [hset n] at this
      simp at this
    have hnone := resetPoll_none_of_stuck reads r hstuck fuel 0
    refine ⟨hnone, ?_⟩
    unfold ina3221_init
    rw [hnone]
  · intro fuel j hsome
    exact (and_rst_eq_zero_iff _).mp (resetPoll_some_clear reads r fuel 0 j hsome)
  · intro hex
    obtain ⟨n, hn⟩ := hex
    obtain ⟨j, hj⟩ := resetPoll_some_of_clear reads r (n + 1) 0
      ⟨n, by omega, by
        rw [Nat.zero_add]
        exact (and_rst_eq_zero_iff _).mpr hn⟩
    refine ⟨n + 1, { configWritten := initConfigWord,
                     convergeIterations := convergeIters reads r (j + 1) 10 }, ?_⟩
    unfold ina3221_init
    rw [hj]

/-- Witness for C10: the transport whose config register always decodes
to 0x8000 keeps the poll unfinished at fuel 5 and the initialisation
unreached. -/
theorem c10_reset_poll_unbounded_witness :
    resetPoll stuckReads 1 0 5 = none ∧ ina3221_init stuckReads 1 5 = none :=
  (c10_reset_poll_unbounded stuckReads 1).1
    (by
      intro n
      have hreg : read_register (devAt stuckReads 1 n) INA3221_REG_CONFIG = 0x8000 := by
        simp [read_register, devAt, stuckReads, decodeRegisterWord, encodeRegisterWord,
          INA3221_REG_CONFIG]
      rw [hreg]
      decide)
    5

/-! ## C7: drift-free absolute-time rescheduling -/

/-- A queued sample event at wake time t with sequence number n. -/
def sampleEv (t : ℚ) (n : Nat) : Event :=
  { time := t, prio := 1, seq := n, kind := .sampleTask }

/-- A queued mean event at wake time t with sequence number n. -/
def meanEv (t : ℚ) (n : Nat) : Event :=
  { time := t, prio := 0, seq := n, kind := .meanTask }

/-- After k firings of `_sample_cb`, `_next_sample` is exactly
t0 + k * period and the next insertion sequence number is 2k, whatever
the dispatch times were. -/
theorem fireSamples_nextSample (c : SPConfig) (dt : Nat → ℚ) (t0 : ℚ) :
    ∀ k, (fireSamples c dt t0 k).nextSample = t0 + (k : ℚ) * c.period ∧
         (fireSamples c dt t0 k).nextSeq = 2 * k := by
  intro k
  induction k with
  | zero => simp [fireSamples]
  | succ k ih =>
    obtain ⟨h1, h2⟩ := ih
    constructor
    · show (sampleBody c _).nextSample = _
      simp only [sampleBody, h1]
      push_cast
      ring
    · show (sampleBody c _).nextSeq = _
      simp only [sampleBody, h2]
      omega

/-- Claim C7: on every firing of the sample task, the next sample task is
scheduled at the previously scheduled wake time plus sample_period,
independent of the dispatch times dt; after k firings from start time t0
the scheduled wake time is t0 + k * period, and the event carrying that
wake time sits in the queue; `start` itself is the first such firing. -/
theorem c7_drift_free (c : SPConfig) (dt : Nat → ℚ) (t0 : ℚ) (k : Nat) (hk : 0 < k) :
    (fireSamples c dt t0 k).nextSample = t0 + (k : ℚ) * c.period ∧
    sampleEv (t0 + (k : ℚ) * c.period) (2 * (k - 1)) ∈ (fireSamples c dt t0 k).queue ∧
    startState c t0 = fireSamples c (fun _ => t0) t0 1 := by
  obtain ⟨j, rfl⟩ : ∃ j, k = j + 1 := ⟨k - 1, by omega⟩
  refine ⟨(fireSamples_nextSample c dt t0 (j + 1)).1, ?_, rfl⟩
  obtain ⟨h1, h2⟩ := fireSamples_nextSample c dt t0 j
  have ht : t0 + ((j + 1 : Nat) : ℚ) * c.period = (fireSamples c dt t0 j).nextSample + c.period := by
    rw [h1]
    push_cast
    ring
  have hs : 2 * (j + 1 - 1) = (fireSamples c dt t0 j).nextSeq := by
    rw [h2]
    omega
  rw [show sampleEv (t0 + ((j + 1 : Nat) : ℚ) * c.period) (2 * (j + 1 - 1)) =
      sampleEv ((fireSamples c dt t0 j).nextSample + c.period) ((fireSamples c dt t0 j).nextSeq)
    from by rw [ht, hs]]
  show _ ∈ (sampleBody c _).queue
  simp only [sampleBody, sampleEv]
  split
  · simp
  · simp

/-- A dispatch-time sequence with a simulated 0.7 s dispatch delay on
every tick. -/
def delayedDispatch : Nat → ℚ := fun k => (k : ℚ) + 7 / 10

/-- The constructor-default scheduler configuration
(period 1 s, window 30 samples). -/
def defaultConfig : SPConfig := { period := 1, cnt := 30 }

/-- Witness for C7: two firings under the default configuration with
delayed dispatch times. -/
theorem c7_drift_free_witness :
    0 < 2 ∧
    ((fireSamples defaultConfig delayedDispatch 0 2).nextSample =
      0 + ((2 : Nat) : ℚ) * defaultConfig.period ∧
    sampleEv (0 + ((2 : Nat) : ℚ) * defaultConfig.period) (2 * (2 - 1)) ∈
        (fireSamples defaultConfig delayedDispatch 0 2).queue ∧
    startState defaultConfig 0 = fireSamples defaultConfig (fun _ => 0) 0 1) :=
  ⟨by decide, c7_drift_free defaultConfig delayedDispatch 0 2 (by decide)⟩

/-! ## C6: window-flush invariants of the scheduler -/

/-- The inductive invariant of reachable scheduler states: the clock never
passes `_next_sample`; the queue holds exactly the pending sample event
(wake time `_next_sample`), plus possibly one pending mean event whose
wake time precedes it and which was enqueued with a full window. -/
def SchedInv (c : SPConfig) (s : SchedState) : Prop :=
  s.now ≤ s.nextSample ∧
  ((∃ n, s.queue = [sampleEv s.nextSample n]) ∨
   (∃ n m tm, s.queue = [sampleEv s.nextSample n, meanEv tm m] ∧
      tm < s.nextSample ∧ c.cnt ≤ s.window))

/-- Running `_sample_cb` from a state with an empty queue establishes the
invariant. -/
theorem schedInv_sampleBody (c : SPConfig) (hp : 0 < c.period) (s : SchedState)
    (hq : s.queue = []) (hn : s.now ≤ s.nextSample) : SchedInv c (sampleBody c s) := by
  by_cases hc : c.cnt ≤ s.window + 1
  · refine ⟨?_, Or.inr ⟨s.nextSeq, s.nextSeq + 1, s.now, ?_, ?_, ?_⟩⟩
    · show s.now ≤ s.nextSample + c.period
      linarith
    · show (if c.cnt ≤ s.window + 1 then _ else _) = _
      rw [if_pos hc, hq]
      rfl
    · show s.now < s.nextSample + c.period
      linarith
    · show c.cnt ≤ s.window + 1
      exact hc
  · refine ⟨?_, Or.inl ⟨s.nextSeq, ?_⟩⟩
    · show s.now ≤ s.nextSample + c.period
      linarith
    · show (if c.cnt ≤ s.window + 1 then _ else _) = _
      rw [if_neg hc, hq]
      rfl

/-- One `sched.run` dispatch preserves the invariant. -/
theorem schedInv_dispatch (c : SPConfig) (hp : 0 < c.period) (s : SchedState)
    (hs : SchedInv c s) : SchedInv c (dispatch c s) := by
  obtain ⟨hn, hq | hq⟩ := hs
  · obtain ⟨n, hqe⟩ := hq
    have hpick : pickMin s.queue = some (sampleEv s.nextSample n, []) := by
      rw [hqe]
      rfl
    unfold dispatch
    rw [hpick]
    show SchedInv c (sampleBody c { s with queue := [], now := max s.now (sampleEv s.nextSample n).time })
    apply schedInv_sampleBody c hp
    · rfl
    · show max s.now (sampleEv s.nextSample n).time ≤ s.nextSample
      exact max_le hn (le_refl _)
  · obtain ⟨n, m, tm, hqe, htm, hw⟩ := hq
    have hbef : (meanEv tm m).before (sampleEv s.nextSample n) = true := by
      simp [Event.before, meanEv, sampleEv, htm]
    have hpick : pickMin s.queue = some (meanEv tm m, [sampleEv s.nextSample n]) := by
      rw [hqe]
      simp [pickMin, hbef]
    unfold dispatch
    rw [hpick]
    show SchedInv c (meanBody { s with queue := [sampleEv s.nextSample n], now := max s.now (meanEv tm m).time })
    refine ⟨?_, Or.inl ⟨n, rfl⟩⟩
    show max s.now tm ≤ s.nextSample
    exact max_le hn (le_of_lt htm)

/-- Every reachable scheduler state satisfies the invariant. -/
theorem schedInv_reach (c : SPConfig) (hp : 0 < c.period) (s : SchedState)
    (hr : Reach c s) : SchedInv c s := by
  induction hr with
  | start t0 =>
    apply schedInv_sampleBody c hp
    · rfl
    · exact le_refl _
  | step _ ih => exact schedInv_dispatch c hp _ ih

/-- Claim C6: in every reachable scheduler state, a mean flush is
dispatched only when the window holds at least mean_period_cnt samples
(never a partial window); whenever a mean event is pending alongside the
sample event, the scheduler dispatches the mean event first, before the
sample callback can append again; and immediately after the mean task
executes the window is empty. -/
theorem c6_scheduler_invariants (c : SPConfig) (hp : 0 < c.period)
    (s : SchedState) (hr : Reach c s) :
    (∀ e rest, pickMin s.queue = some (e, rest) → e.kind = TaskKind.meanTask →
       c.cnt ≤ s.window) ∧
    ((∃ e ∈ s.queue, e.kind = TaskKind.meanTask) →
       ∃ e rest, pickMin s.queue = some (e, rest) ∧ e.kind = TaskKind.meanTask) ∧
    (∀ e rest, pickMin s.queue = some (e, rest) → e.kind = TaskKind.meanTask →
       (dispatch c s).window = 0) := by
  obtain ⟨hn, hq | hq⟩ := schedInv_reach c hp s hr
  · obtain ⟨n, hqe⟩ := hq
    have hpick : pickMin s.queue = some (sampleEv s.nextSample n, []) := by
      rw [hqe]
      rfl
    refine ⟨?_, ?_, ?_⟩
    · intro e rest hpe hke
      rw [hpick] at hpe
      cases hpe
      simp [sampleEv] at hke
    · intro hex
      obtain ⟨e, he, hke⟩ := hex
      rw [hqe] at he
      simp at he
      subst he
      simp [sampleEv] at hke
    · intro e rest hpe hke
      rw [hpick] at hpe
      cases hpe
      simp [sampleEv] at hke
  · obtain ⟨n, m, tm, hqe, htm, hw⟩ := hq
    have hbef : (meanEv tm m).before (sampleEv s.nextSample n) = true := by
      simp [Event.before, meanEv, sampleEv, htm]
    have hpick : pickMin s.queue = some (meanEv tm m, [sampleEv s.nextSample n]) := by
      rw [hqe]
      simp [pickMin, hbef]
    refine ⟨fun _ _ _ _ => hw, ?_, ?_⟩
    · intro _
      exact ⟨meanEv tm m, [sampleEv s.nextSample n], hpick, rfl⟩
    · intro e rest hpe hke
      unfold dispatch
      rw [hpick]
      rfl

/-- A configuration with a single-sample window, so that the very first
firing of the sample callback enqueues a mean event. -/
def tinyConfig : SPConfig := { period := 1, cnt := 1 }

/-- Witness for C6: the state reached by `start` under `tinyConfig`,
whose queue holds both a pending sample event and a pending mean event. -/
theorem c6_scheduler_invariants_witness :
    (0 : ℚ) < tinyConfig.period ∧
    ((∀ e rest, pickMin (startState tinyConfig 0).queue = some (e, rest) →
        e.kind = TaskKind.meanTask → tinyConfig.cnt ≤ (startState tinyConfig 0).window) ∧
     ((∃ e ∈ (startState tinyConfig 0).queue, e.kind = TaskKind.meanTask) →
        ∃ e rest, pickMin (startState tinyConfig 0).queue = some (e, rest) ∧
          e.kind = TaskKind.meanTask) ∧
     (∀ e rest, pickMin (startState tinyConfig 0).queue = some (e, rest) →
        e.kind = TaskKind.meanTask →
        (dispatch tinyConfig (startState tinyConfig 0)).window = 0)) :=
  ⟨by norm_num [tinyConfig],
   c6_scheduler_invariants tinyConfig (by norm_num [tinyConfig]) (startState tinyConfig 0)
     (Reach.start 0)⟩

end PowerStream
